import Mathlib

/-!
Verification development for the StatBot secure-execution sandbox
(`agent.py`): the static validator (`_validate_code_ast`,
`_validate_code_patterns`), the restricted namespace builder
(`_create_safe_globals`), the monitored runner
(`_execute_with_monitoring`), the executor entry point (`execute_code`)
and the retry orchestrator (`process_question`).

Modelling conventions:
- Source text is a list of characters (`Text`).
- CPython internals that the module calls but does not define are made
  explicit data: a `Program` carries its source text together with its
  parse tree (`none` models a `SyntaxError` from `ast.parse`) and its
  runtime behavior as a function of the table value it observes
  (`exec` of arbitrary Python is not re-executed here).
- The mutable world (the table store, the process-wide stdout/stderr
  stream bindings, fresh-name counters, a clock) is threaded as an
  explicit `Sys` state.
-/

abbrev Text := List Char

def txt (s : String) : Text := s.toList

/-- Python whitespace class, as matched by `\s` and stripped by `str.strip()`:
space, tab, newline, carriage return, vertical tab, form feed. -/
def isPyWs (c : Char) : Bool :=
  c = ' ' || c = Char.ofNat 9 || c = Char.ofNat 10 ||
  c = Char.ofNat 13 || c = Char.ofNat 11 || c = Char.ofNat 12

/-- Embedding of Python `str.strip()`: drop whitespace from both ends. -/
def pyStrip (l : Text) : Text :=
  ((l.dropWhile isPyWs).reverse.dropWhile isPyWs).reverse

/-- Embedding of Python `str.lower()` (ASCII-level). -/
def pyLower (l : Text) : Text := l.map Char.toLower

/-! ### The lexical pattern pass (`_validate_code_patterns`)

Each regex in `dangerous_patterns` uses only literal runs, `\s*`, `\s+`
and `.*`; they are embedded as token lists with an executable matcher
that has exactly `re.search` semantics for that fragment (`.` does not
match a newline). -/

inductive Pat where
  | lit (s : Text)
  | ws0
  | ws1
  | anyStar
deriving Repr

def notNl (c : Char) : Bool := !(c = Char.ofNat 10)

/-- Does the token list match a prefix of `cs` (with the rest of `cs`
free), starting exactly at the head of `cs`? -/
def matchHere : List Pat → Text → Bool
  | [], _ => true
  | .lit s :: ps, cs => s.isPrefixOf cs && matchHere ps (cs.drop s.length)
  | .ws0 :: ps, cs =>
      (List.range (cs.length + 1)).any
        (fun n => ((cs.take n).all isPyWs) && matchHere ps (cs.drop n))
  | .ws1 :: ps, cs =>
      (List.range (cs.length + 1)).any
        (fun n => decide (1 ≤ n) && ((cs.take n).all isPyWs) && matchHere ps (cs.drop n))
  | .anyStar :: ps, cs =>
      (List.range (cs.length + 1)).any
        (fun n => ((cs.take n).all notNl) && matchHere ps (cs.drop n))

/-- `re.search`: the pattern matches starting at some position. -/
def reSearch (ps : List Pat) (cs : Text) : Bool :=
  (List.range (cs.length + 1)).any (fun i => matchHere ps (cs.drop i))

/-- The `dangerous_patterns` list of `_validate_code_patterns`, in source
order, each with its reported regex text. The `\.Popen\s*\(` entry keeps
its capital P exactly as in the source even though it is searched against
lowercased text. -/
def dangerous_patterns : List (String × List Pat) :=
  [ ("__.*__", [.lit (txt "__"), .anyStar, .lit (txt "__")]),
    ("import\\s+os", [.lit (txt "import"), .ws1, .lit (txt "os")]),
    ("import\\s+sys", [.lit (txt "import"), .ws1, .lit (txt "sys")]),
    ("import\\s+subprocess", [.lit (txt "import"), .ws1, .lit (txt "subprocess")]),
    ("from\\s+os", [.lit (txt "from"), .ws1, .lit (txt "os")]),
    ("from\\s+sys", [.lit (txt "from"), .ws1, .lit (txt "sys")]),
    ("from\\s+subprocess", [.lit (txt "from"), .ws1, .lit (txt "subprocess")]),
    ("exec\\s*\\(", [.lit (txt "exec"), .ws0, .lit (txt "(")]),
    ("eval\\s*\\(", [.lit (txt "eval"), .ws0, .lit (txt "(")]),
    ("compile\\s*\\(", [.lit (txt "compile"), .ws0, .lit (txt "(")]),
    ("open\\s*\\(", [.lit (txt "open"), .ws0, .lit (txt "(")]),
    ("file\\s*\\(", [.lit (txt "file"), .ws0, .lit (txt "(")]),
    ("input\\s*\\(", [.lit (txt "input"), .ws0, .lit (txt "(")]),
    ("raw_input\\s*\\(", [.lit (txt "raw_input"), .ws0, .lit (txt "(")]),
    ("\\.system\\s*\\(", [.lit (txt ".system"), .ws0, .lit (txt "(")]),
    ("\\.popen\\s*\\(", [.lit (txt ".popen"), .ws0, .lit (txt "(")]),
    ("\\.call\\s*\\(", [.lit (txt ".call"), .ws0, .lit (txt "(")]),
    ("\\.run\\s*\\(", [.lit (txt ".run"), .ws0, .lit (txt "(")]),
    ("\\.Popen\\s*\\(", [.lit (txt ".Popen"), .ws0, .lit (txt "(")]) ]

/-- `_validate_code_patterns`: lowercase the source, report the first
pattern in list order that matches anywhere (`None` result means the
pass accepts; `some msg` models the raised `SecurityError(msg)`). -/
def validate_code_patterns (code : Text) : Option String :=
  let lower := pyLower code
  match dangerous_patterns.find? (fun pr => reSearch pr.2 lower) with
  | some pr => some ("Dangerous pattern detected: " ++ pr.1)
  | none => none

/-! ### The structural pass (`_validate_code_ast`) -/

/-- Python abstract syntax nodes, covering every node kind the validator
inspects (`BLOCKED_AST_NODES`, `Attribute`, `Call`, `Name`) plus the
expression/statement glue needed to write whole programs. -/
inductive PyAst where
  | module (body : List PyAst)
  | exprStmt (value : PyAst)
  | assign (target : String) (value : PyAst)
  | importStmt
  | importFrom
  | functionDef (body : List PyAst)
  | asyncFunctionDef (body : List PyAst)
  | classDef (body : List PyAst)
  | globalStmt
  | nonlocalStmt
  | deleteStmt (targets : List PyAst)
  | withStmt (body : List PyAst)
  | asyncWith (body : List PyAst)
  | tryStmt (body : List PyAst) (handlers : List PyAst)
  | exceptHandler (body : List PyAst)
  | raiseStmt
  | assertStmt (test : PyAst)
  | attributeE (value : PyAst) (attr : String)
  | callE (func : PyAst) (args : List PyAst)
  | nameE (id : String)
  | constE (s : String)
deriving Repr

/-- `BLOCKED_BUILTINS` from `SecureExecutor`. -/
def BLOCKED_BUILTINS : List String :=
  [ "open", "exec", "eval", "compile", "__import__", "input",
    "raw_input", "file", "execfile", "reload", "vars", "dir",
    "globals", "locals", "delattr", "setattr", "getattr",
    "hasattr", "callable", "isinstance", "issubclass",
    "super", "property", "staticmethod", "classmethod" ]

/-- `BLOCKED_ATTRIBUTES` from `SecureExecutor`. -/
def BLOCKED_ATTRIBUTES : List String :=
  [ "__class__", "__bases__", "__subclasses__", "__mro__",
    "__dict__", "__globals__", "__locals__", "__code__",
    "__func__", "__self__", "__module__", "__qualname__" ]

/-- Is this node one of the `BLOCKED_AST_NODES` kinds (`type(node)` in the
denylist)? -/
def blockedKind : PyAst → Bool
  | .importStmt | .importFrom | .functionDef _ | .asyncFunctionDef _
  | .classDef _ | .globalStmt | .nonlocalStmt | .deleteStmt _
  | .withStmt _ | .asyncWith _ | .tryStmt _ _ | .exceptHandler _
  | .raiseStmt | .assertStmt _ => true
  | _ => false

/-- The Python class name of a node, as `type(node).__name__` prints it. -/
def kindName : PyAst → String
  | .module _ => "Module"
  | .exprStmt _ => "Expr"
  | .assign _ _ => "Assign"
  | .importStmt => "Import"
  | .importFrom => "ImportFrom"
  | .functionDef _ => "FunctionDef"
  | .asyncFunctionDef _ => "AsyncFunctionDef"
  | .classDef _ => "ClassDef"
  | .globalStmt => "Global"
  | .nonlocalStmt => "Nonlocal"
  | .deleteStmt _ => "Delete"
  | .withStmt _ => "With"
  | .asyncWith _ => "AsyncWith"
  | .tryStmt _ _ => "Try"
  | .exceptHandler _ => "ExceptHandler"
  | .raiseStmt => "Raise"
  | .assertStmt _ => "Assert"
  | .attributeE _ _ => "Attribute"
  | .callE _ _ => "Call"
  | .nameE _ => "Name"
  | .constE _ => "Constant"

/-- The per-node checks of `_validate_code_ast`, in source order: blocked
node kind, then blocked attribute access, then blocked direct call to a
named function. -/
def checkNode (n : PyAst) : Option String :=
  if blockedKind n then some ("Blocked construct detected: " ++ kindName n)
  else
    match n with
    | .attributeE _ attr =>
        if BLOCKED_ATTRIBUTES.contains attr then
          some ("Blocked attribute access: " ++ attr)
        else none
    | .callE f _ =>
        match f with
        | .nameE id =>
            if BLOCKED_BUILTINS.contains id then
              some ("Blocked function call: " ++ id)
            else none
        | _ => none
    | _ => none

mutual

/-- Walk every node of the tree (as `ast.walk` visits every node) and
report the first violation found, if any. -/
def astCheck (t : PyAst) : Option String :=
  match checkNode t with
  | some m => some m
  | none =>
    match t with
    | .module body => astCheckList body
    | .exprStmt v => astCheck v
    | .assign _ v => astCheck v
    | .functionDef body => astCheckList body
    | .asyncFunctionDef body => astCheckList body
    | .classDef body => astCheckList body
    | .deleteStmt targets => astCheckList targets
    | .withStmt body => astCheckList body
    | .asyncWith body => astCheckList body
    | .tryStmt body handlers =>
        match astCheckList body with
        | some m => some m
        | none => astCheckList handlers
    | .exceptHandler body => astCheckList body
    | .assertStmt test => astCheck test
    | .attributeE v _ => astCheck v
    | .callE f args =>
        match astCheck f with
        | some m => some m
        | none => astCheckList args
    | _ => none

def astCheckList (l : List PyAst) : Option String :=
  match l with
  | [] => none
  | t :: ts =>
    match astCheck t with
    | some m => some m
    | none => astCheckList ts

end

/-- `_validate_code_ast`: `ast.parse` failure (modelled as a `none` parse
tree) is a `SecurityError` with a syntax reason; otherwise walk the tree.
`none` result means the pass accepts. -/
def validate_code_ast (parseRes : Option PyAst) : Option String :=
  match parseRes with
  | none => some "Syntax error in code"
  | some t => astCheck t

/-! ### System state, programs and runtime behavior -/

/-- A table value: the observable contents of a DataFrame (rows of
cells). `df.empty` is rows being empty. -/
abbrev TableVal := List (List String)

/-- The mutable world threaded through the sandbox: the heap of live
DataFrame objects (a reference is an index), the process-wide stdout and
stderr stream bindings (`sys.stdout` / `sys.stderr`, by stream id), a
fresh-id counter for newly created capture buffers and chart filenames,
and a wall clock. -/
structure Sys where
  tables : List TableVal
  stdoutS : Nat
  stderrS : Nat
  nextId : Nat
  now : Nat
deriving Repr

def tableAt (s : Sys) (r : Nat) : TableVal := s.tables.getD r []

def allocTable (s : Sys) (v : TableVal) : Sys × Nat :=
  ({ s with tables := s.tables ++ [v] }, s.tables.length)

def setTable (s : Sys) (r : Nat) (v : TableVal) : Sys :=
  { s with tables := s.tables.set r v }

/-- How one execution of a validated program ends, mirroring the branches
of `_execute_with_monitoring`: normal completion (with captured stdout
and stderr text, the locals the program defined as string
representations, and whether any matplotlib figure is open), an ordinary
raised exception (type name, message, traceback text), a `MemoryError`,
or a `KeyboardInterrupt`. -/
inductive Effect where
  | normal (out errOut : Text) (locs : List (String × Text)) (figs : Bool)
  | raiseE (etype : String) (emsg : String) (tb : Text)
  | memErr
  | kbInterrupt

/-- A `CandidateProgram`: its source text, its parse tree as `ast.parse`
would produce it (`none` is a syntax error), and its runtime behavior as
a function of the table value bound to `df` in its namespace: the value
`df` holds when execution stops (mutation through the binding), the
outcome, the wall-clock duration, and whether it outlives the host
timeout. -/
structure Program where
  text : Text
  parse : Option PyAst
  tableAfter : TableVal → TableVal
  outcome : TableVal → Effect
  execTime : Nat
  hangs : Bool

/-- The safe-builtin allow-list hard-coded in `_create_safe_globals`. -/
def SAFE_BUILTIN_NAMES : List String :=
  [ "len", "str", "int", "float", "bool", "list", "dict",
    "tuple", "set", "range", "enumerate", "zip", "sorted",
    "sum", "min", "max", "abs", "round", "type", "print" ]

/-- The keys of `ALLOWED_MODULES`. -/
def ALLOWED_MODULE_NAMES : List String :=
  [ "pandas", "pd", "numpy", "np", "matplotlib", "plt",
    "math", "datetime", "statistics" ]

/-- The execution namespace built by `_create_safe_globals`: the names
kept in its `__builtins__`, the module bindings, and the reference to the
DataFrame copy bound under the reserved name `df`. -/
structure SafeGlobals where
  builtinNames : List String
  moduleNames : List String
  dfRef : Nat

/-- `_create_safe_globals`: filter the ambient `__builtins__` (names not
in `BLOCKED_BUILTINS` and in the safe allow-list), add the allowed
modules, and bind `df` to a fresh copy (`df.copy()`) of the caller's
table. -/
def create_safe_globals (ambient : List String) (s : Sys) (dfRef : Nat) :
    SafeGlobals × Sys :=
  let safeB := ambient.filter
    (fun n => !(BLOCKED_BUILTINS.contains n) && SAFE_BUILTIN_NAMES.contains n)
  let dfv := tableAt s dfRef
  let (s1, newRef) := allocTable s dfv
  ({ builtinNames := safeB, moduleNames := ALLOWED_MODULE_NAMES,
     dfRef := newRef }, s1)

/-! ### Results and exceptions -/

/-- The result dictionary of `_execute_with_monitoring`: the
success-shaped record from the normal return, or the failure-shaped
record built in the `except Exception` branch. -/
inductive ExecResult where
  | ok (output : Text) (errors : Text) (chart_url : Option String)
       (execution_time : Nat) (localsV : List (String × Text))
  | fail (error : String) (error_type : String) (tb : Text)
         (execution_time : Nat)

/-- The exception taxonomy of `agent.py` (each carries `str(e)`). -/
inductive AgentExn where
  | securityErr (msg : String)
  | execErr (msg : String)
  | timeoutErr (msg : String)
  | validationErr (msg : String)
  | agentErr (msg : String)
deriving Repr, DecidableEq

/-- `type(e).__name__` for the exception taxonomy. -/
def exnTypeName : AgentExn → String
  | .securityErr _ => "SecurityError"
  | .execErr _ => "ExecutionError"
  | .timeoutErr _ => "TimeoutError"
  | .validationErr _ => "ValidationError"
  | .agentErr _ => "AgentError"

def exnMsg : AgentExn → String
  | .securityErr m | .execErr m | .timeoutErr m
  | .validationErr m | .agentErr m => m

/-- `MAX_OUTPUT_SIZE` from `SecureExecutor`. -/
def MAX_OUTPUT_SIZE : Nat := 10000

/-- The marker appended when captured stdout exceeds `MAX_OUTPUT_SIZE`. -/
def truncMarker : Text := txt "\n... (output truncated)"

/-- The locals reported on success: every variable the program defined
whose name does not start with an underscore, its string representation
truncated to 200 characters. -/
def localsView (locs : List (String × Text)) : List (String × Text) :=
  (locs.filter (fun kv => !(kv.1.startsWith "_"))).map
    (fun kv => (kv.1, kv.2.take 200))

/-- Outcome of one monitored run: the value `future.result()` would
deliver (a result dictionary, or the exception raised inside the worker)
together with the state of the world afterwards. -/
structure MonOut where
  res : Except AgentExn ExecResult
  sys : Sys

/-- `_execute_with_monitoring`: save the installed stdout/stderr, bind
fresh capture buffers in their place, execute the program against the
`df` binding of its namespace (the binding is updated to whatever the
program left there), then normalize the outcome — truncate oversized
stdout and append the marker, strip both captured streams, detect an
open figure and record a chart path under a fresh name, package ordinary
exceptions into a failure-shaped result, and re-raise `MemoryError` and
`KeyboardInterrupt` as `ExecutionError`. The `finally` block restores
the saved streams in every branch. (`plt.close` and the possibility of
`savefig` itself failing are not modelled; neither affects any stated
property.) -/
def monitoredRun (p : Program) (ns : SafeGlobals) (s : Sys) : MonOut :=
  let oldStdout := s.stdoutS
  let oldStderr := s.stderrS
  let sIn : Sys :=
    { s with stdoutS := s.nextId, stderrS := s.nextId + 1,
             nextId := s.nextId + 2 }
  let dfv := tableAt s ns.dfRef
  let s2 := setTable sIn ns.dfRef (p.tableAfter dfv)
  let s3 : Sys := { s2 with now := s2.now + p.execTime }
  let fin : Sys → Sys := fun st =>
    { st with stdoutS := oldStdout, stderrS := oldStderr }
  match p.outcome dfv with
  | .normal out errOut locs figs =>
      let out1 := if MAX_OUTPUT_SIZE < out.length
                  then out.take MAX_OUTPUT_SIZE ++ truncMarker
                  else out
      let (chart, s4) :=
        if figs then
          (some ("/static/chart_" ++ toString s3.nextId ++ ".png"),
           { s3 with nextId := s3.nextId + 1 })
        else (none, s3)
      { res := .ok (.ok (pyStrip out1) (pyStrip errOut) chart
                        p.execTime (localsView locs)),
        sys := fin s4 }
  | .raiseE etype emsg tb =>
      { res := .ok (.fail emsg etype tb p.execTime), sys := fin s3 }
  | .memErr =>
      { res := .error (.execErr "Code execution exceeded memory limits"),
        sys := fin s3 }
  | .kbInterrupt =>
      { res := .error (.execErr "Code execution was interrupted"),
        sys := fin s3 }

/-- Which validation pass rejected a program. -/
inductive Veto where
  | astReject (msg : String)
  | patternReject (msg : String)
deriving Repr, DecidableEq

/-- The static validation performed at the top of `execute_code`, in
source order: the structural pass first, the lexical pattern pass
second. -/
def staticValidate (p : Program) : Option Veto :=
  match validate_code_ast p.parse with
  | some m => some (.astReject m)
  | none =>
    match validate_code_patterns p.text with
    | some m => some (.patternReject m)
    | none => none

/-- Record of one actual execution (one submission of
`_execute_with_monitoring` to the worker): the program run, the table
value its `df` binding held at the start, and what the run delivered. -/
structure RunRec where
  prog : Program
  observed : TableVal
  res : Except AgentExn ExecResult

/-- What one `execute_code` call produces: the value returned or the
exception raised, the world afterwards, and the list of executions that
actually happened (empty when validation rejects). -/
structure ExecOut where
  res : Except AgentExn ExecResult
  sys : Sys
  recs : List RunRec

/-- `execute_code`: validate (AST pass, then pattern pass; a rejection
raises `SecurityError` before any namespace is built or any code runs),
build the safe namespace, submit the monitored run to the single worker
and await it under the timeout. A program that outlives the deadline
raises `TimeoutError` (its still-running effects are not observable as a
completed run and are not modelled). Exceptions delivered by the worker
(`SecurityError`, `ExecutionError`, `TimeoutError`) are re-raised
unchanged. -/
def execute_code (ambient : List String) (p : Program) (dfRef : Nat)
    (s : Sys) : ExecOut :=
  match staticValidate p with
  | some (.astReject m) => { res := .error (.securityErr m), sys := s, recs := [] }
  | some (.patternReject m) => { res := .error (.securityErr m), sys := s, recs := [] }
  | none =>
    let (ns, s1) := create_safe_globals ambient s dfRef
    if p.hangs then
      { res := .error (.timeoutErr "Code execution timed out"),
        sys := s1, recs := [] }
    else
      let mo := monitoredRun p ns s1
      { res := mo.res, sys := mo.sys,
        recs := [{ prog := p, observed := tableAt s1 ns.dfRef, res := mo.res }] }

/-! ### The retry orchestrator (`process_question`) -/

/-- The code-generation collaborator, as `process_question` consumes it:
the program for attempt 1 (`_generate_analysis_code` applied to the
fixed question and schema), the revision used on later attempts
(`_fix_code_intelligently` applied to the previous code, the last error
message, the last error type name and the attempt number), and the one
bit of intent analysis the answer shape depends on (whether the question
asked for a visualization). -/
structure GenSpec where
  initial : Program
  revise : Program → String → String → Nat → Program
  requiresViz : Bool

/-- The answer dictionary `process_question` returns: the success shape
or the terminal-failure shape (each with its exact key set; the
`dataframe_info` payload of the success shape is out of sandbox scope
and not modelled). -/
inductive Answer where
  | done (answer : Text) (chart_url : Option String) (code_used : Program)
         (analysis_type : String) (execution_time : Nat)
         (processing_time : Nat) (attempts : Nat)
  | failed (answer : String) (error : String) (error_type : String)
           (code_used : Program) (analysis_type : String)
           (processing_time : Nat) (attempts : Nat)

def Answer.attempts : Answer → Nat
  | .done _ _ _ _ _ _ a => a
  | .failed _ _ _ _ _ _ a => a

/-- The `answer` field of a successful attempt:
`result.get('output') or "Analysis completed successfully"`. -/
def successAnswerText (out : Text) : Text :=
  if out = [] then txt "Analysis completed successfully" else out

/-- The `analysis_type` field of a successful attempt. -/
def analysisTypeOf (chart : Option String) (requiresViz : Bool) : String :=
  match chart with
  | some _ => "visualization"
  | none => if requiresViz then "visualization_attempted" else "computation"

/-- The `answer` field of the terminal failure return. -/
def failMsg (maxRetries : Nat) (lastError : String) : String :=
  "Analysis failed after " ++ toString maxRetries ++
    " attempts. Last error: " ++ lastError

/-- What `process_question` delivers: the answer returned or the
exception raised (`.ok none` is the `None` Python returns when the
`for` loop body never runs, i.e. `max_retries == 0`), the world
afterwards, and the record of every execution performed. -/
structure PqOut where
  res : Except AgentExn (Option Answer)
  sys : Sys
  recs : List RunRec

/-- The retry loop body of `process_question` (lines 1051-1119), with the
program for the current attempt already generated. `left` is the number
of attempts still allowed including this one (`max_retries - attempt + 1`
at every reachable call), used as fuel; the terminal-failure test is the
source's `attempt == self.max_retries`. On an ordinary failed result the
next attempt's program is `revise` of the current program and the
recorded error; `SecurityError` and `TimeoutError` from the executor are
re-raised; any other exception is recorded and, on the final attempt,
becomes `ExecutionError` which the outer handler wraps into
`AgentError`. -/
def pqLoop (ambient : List String) (gen : GenSpec) (maxRetries : Nat)
    (dfRef : Nat) (startNow : Nat) :
    Nat → Nat → Program → Sys → List RunRec → PqOut
  | 0, _, _, s, tr => { res := .ok none, sys := s, recs := tr }
  | Nat.succ left, attempt, code, s, tr =>
    let eo := execute_code ambient code dfRef s
    let tr1 := tr ++ eo.recs
    match eo.res with
    | .ok (.ok out _errs chart et _locs) =>
        { res := .ok (some (.done (successAnswerText out) chart code
                        (analysisTypeOf chart gen.requiresViz) et
                        (eo.sys.now - startNow) attempt)),
          sys := eo.sys, recs := tr1 }
    | .ok (.fail err etype _tb _et) =>
        if attempt = maxRetries then
          { res := .ok (some (.failed (failMsg maxRetries err) err etype
                          code "error" (eo.sys.now - startNow) attempt)),
            sys := eo.sys, recs := tr1 }
        else
          pqLoop ambient gen maxRetries dfRef startNow left (attempt + 1)
            (gen.revise code err etype (attempt + 1)) eo.sys tr1
    | .error e =>
        match e with
        | .securityErr m =>
            { res := .error (.securityErr m), sys := eo.sys, recs := tr1 }
        | .timeoutErr m =>
            { res := .error (.timeoutErr m), sys := eo.sys, recs := tr1 }
        | other =>
            if attempt = maxRetries then
              { res := .error (.agentErr ("Critical processing error: " ++
                          "Processing failed after " ++ toString maxRetries ++
                          " attempts: " ++ exnMsg other)),
                sys := eo.sys, recs := tr1 }
            else
              pqLoop ambient gen maxRetries dfRef startNow left (attempt + 1)
                (gen.revise code (exnMsg other) (exnTypeName other) (attempt + 1))
                eo.sys tr1

/-- `process_question`: validate the inputs (`ValidationError` on an
empty table or a blank question, before any attempt), then run the
attempt loop starting from the generated initial program. -/
def process_question (ambient : List String) (gen : GenSpec)
    (maxRetries : Nat) (dfRef : Nat) (question : Text) (s : Sys) : PqOut :=
  if tableAt s dfRef = [] then
    { res := .error (.validationErr "DataFrame is None or empty"),
      sys := s, recs := [] }
  else if pyStrip question = [] then
    { res := .error (.validationErr "Question is empty or None"),
      sys := s, recs := [] }
  else
    match maxRetries with
    | 0 => { res := .ok none, sys := s, recs := [] }
    | Nat.succ l =>
        pqLoop ambient gen (Nat.succ l) dfRef s.now (Nat.succ l) 1
          gen.initial s []

/-! ### Concrete fixtures used by witnesses and counterexamples -/

/-- A single-quote character, kept out of literals. -/
def quoteCh : Char := Char.ofNat 39

/-- A sample ambient `__builtins__` table (names only). -/
def amb0 : List String :=
  ["len", "print", "open", "str", "getattr", "sum", "exec"]

def table0 : TableVal :=
  [["North", "100"], ["South", "90"], ["North", "50"], ["East", "70"]]

def sys0 : Sys :=
  { tables := [table0], stdoutS := 0, stderrS := 1, nextId := 2, now := 0 }

def ns0 : SafeGlobals :=
  { builtinNames := ["print"], moduleNames := ALLOWED_MODULE_NAMES, dfRef := 0 }

def q0 : Text := txt "total sales in north"

/-- A benign parse tree: `print(1)`. -/
def astOk : PyAst := .module [.exprStmt (.callE (.nameE "print") [.constE "1"])]

def benignText : Text := txt "print(1)"

def mkProg (eff : Effect) : Program :=
  { text := benignText, parse := some astOk, tableAfter := fun tv => tv,
    outcome := fun _ => eff, execTime := 1, hangs := false }

/-- A program that is rejected statically: `import os`. -/
def pImportOs : Program :=
  { text := txt "import os", parse := some (.module [.importStmt]),
    tableAfter := fun tv => tv,
    outcome := fun _ => .normal [] [] [] false, execTime := 1, hangs := false }

/-- A program whose execution hits the memory ceiling. -/
def pMem : Program := mkProg .memErr

/-- A program whose execution is interrupted from the keyboard. -/
def pKb : Program := mkProg .kbInterrupt

/-- A program whose execution raises an ordinary `ValueError`. -/
def pRaise : Program := mkProg (.raiseE "ValueError" "boom" (txt "tb"))

/-- A program whose execution always raises the same `KeyError`. -/
def pKey : Program := mkProg (.raiseE "KeyError" "missing column" (txt "tb"))

/-- A program that prints 10001 space characters. -/
def pWS : Program := mkProg (.normal (List.replicate 10001 ' ') [] [] false)

/-- A program that prints 20000 non-whitespace characters. -/
def p20k : Program := mkProg (.normal (List.replicate 20000 'a') [] [] false)

/-- A program that defines locals `x` and `_h` and prints `ok`. -/
def pLoc : Program :=
  mkProg (.normal (txt "ok") [] [("x", txt "5"), ("_h", txt "9")] false)

/-- The source text of `print(__import__(<q>os<q>).listdir(<q>.<q>))`
(with `<q>` the single-quote character). -/
def c9text : Text :=
  txt "print(__import__(" ++ [quoteCh] ++ txt "os" ++ [quoteCh] ++
    txt ").listdir(" ++ [quoteCh] ++ txt "." ++ [quoteCh] ++ txt "))"

/-- Its parse tree. -/
def c9ast : PyAst :=
  .module [.exprStmt (.callE (.nameE "print")
    [.callE (.attributeE (.callE (.nameE "__import__") [.constE "os"]) "listdir")
            [.constE "."]])]

def c9prog : Program :=
  { text := c9text, parse := some c9ast, tableAfter := fun tv => tv,
    outcome := fun _ => .normal [] [] [] false, execTime := 1, hangs := false }

/-- A generator that always hands back the statically rejected program. -/
def genRej : GenSpec :=
  { initial := pImportOs, revise := fun c _ _ _ => c, requiresViz := false }

/-- A generator whose every program raises the same `KeyError`. -/
def genKey : GenSpec :=
  { initial := pKey, revise := fun _ _ _ _ => pKey, requiresViz := false }

/-- A generator whose every program raises the same `ValueError`. -/
def genVal : GenSpec :=
  { initial := pRaise, revise := fun _ _ _ _ => pRaise, requiresViz := false }

/-! ### Result projections used in theorem statements -/

def monOutput (mo : MonOut) : Option Text :=
  match mo.res with
  | .ok (.ok out _ _ _ _) => some out
  | _ => none

def monLocals (mo : MonOut) : Option (List (String × Text)) :=
  match mo.res with
  | .ok (.ok _ _ _ _ lv) => some lv
  | _ => none

/-! ### Helper lemmas -/

theorem dropWhile_replicate_true (p : Char → Bool) (a : Char) (h : p a = true) :
    ∀ (n : Nat) (l : Text),
      List.dropWhile p (List.replicate n a ++ l) = List.dropWhile p l := by
  intro n
  induction n with
  | zero => intro l; rfl
  | succ k ih =>
      intro l
      simp only [List.replicate_succ, List.cons_append, List.dropWhile_cons, h]
      exact ih l

theorem dropWhile_eq_self_append (p : Char → Bool) (l m : Text)
    (h : List.dropWhile p l = l) (hne : l ≠ []) :
    List.dropWhile p (l ++ m) = l ++ m := by
  cases l with
  | nil => exact absurd rfl hne
  | cons a t =>
      have hpa : p a = false := by
        by_contra hp
        have hpa' : p a = true := by
          cases hb : p a
          · exact absurd hb hp
          · rfl
        have hlen := congrArg List.length h
        simp only [List.dropWhile_cons, hpa', if_true, List.length_cons] at hlen
        have hle := (List.dropWhile_suffix (l := t) p).length_le
        omega
      simp only [List.cons_append, List.dropWhile_cons, hpa]
      simp

/-- The normal-return branch of the monitored runner, in one equation. -/
theorem monitoredRun_normal (p : Program) (ns : SafeGlobals) (s : Sys)
    (out errOut : Text) (locs : List (String × Text)) (figs : Bool)
    (h : p.outcome (tableAt s ns.dfRef) = .normal out errOut locs figs) :
    (monitoredRun p ns s).res = .ok (.ok
      (pyStrip (if MAX_OUTPUT_SIZE < out.length
                then out.take MAX_OUTPUT_SIZE ++ truncMarker else out))
      (pyStrip errOut)
      (if figs then some ("/static/chart_" ++ toString (s.nextId + 2) ++ ".png")
       else none)
      p.execTime (localsView locs)) := by
  simp only [monitoredRun, h]
  cases figs <;> rfl

/-- The exception branches of the monitored runner. -/
theorem monitoredRun_raise (p : Program) (ns : SafeGlobals) (s : Sys)
    (et em : String) (tb : Text)
    (h : p.outcome (tableAt s ns.dfRef) = .raiseE et em tb) :
    (monitoredRun p ns s).res = .ok (.fail em et tb p.execTime) := by
  simp only [monitoredRun, h]

theorem monitoredRun_mem (p : Program) (ns : SafeGlobals) (s : Sys)
    (h : p.outcome (tableAt s ns.dfRef) = .memErr) :
    (monitoredRun p ns s).res =
      .error (.execErr "Code execution exceeded memory limits") := by
  simp only [monitoredRun, h]

theorem monitoredRun_kb (p : Program) (ns : SafeGlobals) (s : Sys)
    (h : p.outcome (tableAt s ns.dfRef) = .kbInterrupt) :
    (monitoredRun p ns s).res =
      .error (.execErr "Code execution was interrupted") := by
  simp only [monitoredRun, h]

/-! ### Claim C3 -/

/-- Claim C3: for every call to the runner, whatever the outcome (normal
completion, ordinary runtime error, memory-limit breach, or keyboard
interrupt), the process-level stdout and stderr stream bindings after
the call are exactly the ones installed before the call. -/
theorem streams_always_restored (p : Program) (ns : SafeGlobals) (s : Sys) :
    (monitoredRun p ns s).sys.stdoutS = s.stdoutS ∧
    (monitoredRun p ns s).sys.stderrS = s.stderrS := by
  constructor <;>
    · simp only [monitoredRun]
      rcases h : p.outcome (tableAt s ns.dfRef) with
        ⟨out, errOut, locs, figs⟩ | ⟨et, em, tb⟩ | _ | _ <;>
        simp only [h]

/-! ### Claim C2 (corrected) -/

/-- Claim C2, counterexample: a memory-ceiling violation is not packaged
into a failed result; the runner raises `ExecutionError`, which
propagates past the runner boundary. -/
theorem memErr_propagates_past_runner :
    (monitoredRun pMem ns0 sys0).res =
      .error (.execErr "Code execution exceeded memory limits") :=
  monitoredRun_mem pMem ns0 sys0 rfl

/-- Claim C2 as amended: ordinary raised failures are captured into a
success=false result carrying the message, the error type name and the
traceback; but a memory-ceiling violation and a keyboard interrupt are
re-raised as `ExecutionError` exceptions that do propagate past the
runner boundary. -/
theorem runner_failure_propagation_amended :
    (∀ (p : Program) (ns : SafeGlobals) (s : Sys) (et em : String) (tb : Text),
       p.outcome (tableAt s ns.dfRef) = .raiseE et em tb →
       (monitoredRun p ns s).res = .ok (.fail em et tb p.execTime)) ∧
    (∀ (p : Program) (ns : SafeGlobals) (s : Sys),
       p.outcome (tableAt s ns.dfRef) = .memErr →
       (monitoredRun p ns s).res =
         .error (.execErr "Code execution exceeded memory limits")) ∧
    (∀ (p : Program) (ns : SafeGlobals) (s : Sys),
       p.outcome (tableAt s ns.dfRef) = .kbInterrupt →
       (monitoredRun p ns s).res =
         .error (.execErr "Code execution was interrupted")) :=
  ⟨fun p ns s et em tb h => monitoredRun_raise p ns s et em tb h,
   fun p ns s h => monitoredRun_mem p ns s h,
   fun p ns s h => monitoredRun_kb p ns s h⟩

/-- Witness for the amended claim C2, at one concrete program per
branch. -/
theorem runner_failure_propagation_amended_witness :
    (monitoredRun pRaise ns0 sys0).res =
      .ok (.fail "boom" "ValueError" (txt "tb") 1) ∧
    (monitoredRun pMem ns0 sys0).res =
      .error (.execErr "Code execution exceeded memory limits") ∧
    (monitoredRun pKb ns0 sys0).res =
      .error (.execErr "Code execution was interrupted") :=
  ⟨runner_failure_propagation_amended.1 pRaise ns0 sys0 "ValueError" "boom"
     (txt "tb") rfl,
   runner_failure_propagation_amended.2.1 pMem ns0 sys0 rfl,
   runner_failure_propagation_amended.2.2 pKb ns0 sys0 rfl⟩

/-! ### Claim C9 (corrected) -/

/-- Claim C9, counterexample: the program
`print(__import__(<q>os<q>).listdir(<q>.<q>))` is rejected by the
structural (AST) pass — which `execute_code` runs first — not by the
lexical pattern pass. -/
theorem c9_rejected_by_ast_pass_not_pattern_pass :
    staticValidate c9prog =
      some (.astReject "Blocked function call: __import__") := by
  rfl

/-- Claim C9 as amended: the program is rejected by the structural pass
(blocked call to `__import__`), which runs before the lexical pass; the
lexical pass alone would also reject it, via the dunder pattern `__.*__`
(not the import pattern); and `execute_code` rejects it before building
any namespace or performing any execution. -/
theorem c9_rejection_amended :
    validate_code_ast c9prog.parse = some "Blocked function call: __import__" ∧
    validate_code_patterns c9prog.text =
      some "Dangerous pattern detected: __.*__" ∧
    execute_code amb0 c9prog 0 sys0 =
      { res := .error (.securityErr "Blocked function call: __import__"),
        sys := sys0, recs := [] } :=
  ⟨by rfl, by decide, by rfl⟩

/-! ### Claim C6 -/

theorem create_safe_globals_builtins (ambient : List String) (s : Sys)
    (dfRef : Nat) :
    (create_safe_globals ambient s dfRef).1.builtinNames =
      ambient.filter (fun n =>
        !(BLOCKED_BUILTINS.contains n) && SAFE_BUILTIN_NAMES.contains n) := rfl

/-- Claim C6: the namespace built by `_create_safe_globals` exposes as
`__builtins__` only names drawn from the fixed safe allow-list, and no
entry of the dangerous-built-ins denylist is present in it — for any
ambient `__builtins__` table and any input table. -/
theorem safe_builtins_allowlist_only (ambient : List String) (s : Sys)
    (dfRef : Nat) :
    (∀ n ∈ (create_safe_globals ambient s dfRef).1.builtinNames,
       n ∈ SAFE_BUILTIN_NAMES ∧ n ∉ BLOCKED_BUILTINS) ∧
    (∀ b ∈ BLOCKED_BUILTINS,
       b ∉ (create_safe_globals ambient s dfRef).1.builtinNames) := by
  constructor
  · intro n hn
    rw [create_safe_globals_builtins] at hn
    rw [List.mem_filter] at hn
    obtain ⟨-, hp⟩ := hn
    rw [Bool.and_eq_true] at hp
    obtain ⟨hnb, hsafe⟩ := hp
    refine ⟨by simpa using hsafe, ?_⟩
    intro hmem
    rw [Bool.not_eq_true'] at hnb
    have : n ∉ BLOCKED_BUILTINS := by simpa using hnb
    exact this hmem
  · intro b hb hmem
    rw [create_safe_globals_builtins, List.mem_filter] at hmem
    obtain ⟨-, hp⟩ := hmem
    rw [Bool.and_eq_true] at hp
    obtain ⟨hnb, -⟩ := hp
    rw [Bool.not_eq_true'] at hnb
    have : b ∉ BLOCKED_BUILTINS := by simpa using hnb
    exact this hb

/-- Witness for claim C6 at a concrete ambient builtins table. -/
theorem safe_builtins_allowlist_only_witness :
    ("len" ∈ SAFE_BUILTIN_NAMES ∧ "len" ∉ BLOCKED_BUILTINS) ∧
    "open" ∉ (create_safe_globals amb0 sys0 0).1.builtinNames :=
  ⟨(safe_builtins_allowlist_only amb0 sys0 0).1 "len" (by decide),
   (safe_builtins_allowlist_only amb0 sys0 0).2 "open" (by decide)⟩

/-! ### Claim C10 -/

/-- Claim C10: every successful run carries a `locals` field mapping each
program-defined variable whose name does not start with an underscore to
its string representation truncated to 200 characters, omitting
underscore-prefixed names. -/
theorem success_result_locals_field (p : Program) (ns : SafeGlobals)
    (s : Sys) (out errOut : Text) (locs : List (String × Text)) (figs : Bool)
    (h : p.outcome (tableAt s ns.dfRef) = .normal out errOut locs figs) :
    monLocals (monitoredRun p ns s) = some (localsView locs) ∧
    (∀ kv ∈ localsView locs,
       kv.1.startsWith "_" = false ∧ kv.2.length ≤ 200) ∧
    (∀ kv : String × Text, kv ∈ localsView locs ↔
       ∃ full, (kv.1, full) ∈ locs ∧ kv.1.startsWith "_" = false ∧
         kv.2 = full.take 200) := by
  refine ⟨?_, ?_, ?_⟩
  · rw [monLocals, monitoredRun_normal p ns s out errOut locs figs h]
  · intro kv hkv
    simp only [localsView, List.mem_map, List.mem_filter] at hkv
    obtain ⟨⟨k0, full⟩, ⟨-, hq⟩, heq⟩ := hkv
    rw [Bool.not_eq_true'] at hq
    cases heq
    exact ⟨hq, by simp⟩
  · intro kv
    simp only [localsView, List.mem_map, List.mem_filter]
    constructor
    · rintro ⟨⟨k0, full⟩, ⟨hmem, hq⟩, heq⟩
      rw [Bool.not_eq_true'] at hq
      cases heq
      exact ⟨full, hmem, hq, rfl⟩
    · rintro ⟨full, hmem, hq, hval⟩
      refine ⟨(kv.1, full), ⟨hmem, ?_⟩, ?_⟩
      · simp [hq]
      · cases kv
        simp only at hval
        simp [hval]

/-- Witness for claim C10 at a program defining `x` and `_h`. -/
theorem success_result_locals_field_witness :
    monLocals (monitoredRun pLoc ns0 sys0) =
      some (localsView [("x", txt "5"), ("_h", txt "9")]) :=
  (success_result_locals_field pLoc ns0 sys0 (txt "ok") []
    [("x", txt "5"), ("_h", txt "9")] false rfl).1

/-! ### Claim C8 (corrected) -/

theorem dropWhile_replicate_false (p : Char → Bool) (a : Char)
    (h : p a = false) (n : Nat) :
    List.dropWhile p (List.replicate n a) = List.replicate n a := by
  cases n with
  | zero => rfl
  | succ k => simp [List.replicate_succ, List.dropWhile_cons, h]

theorem replicate_max_ne_nil :
    List.replicate MAX_OUTPUT_SIZE ' ' ≠ ([] : Text) := by
  intro h
  have h1 := congrArg List.length h
  rw [List.length_replicate, List.length_nil] at h1
  exact absurd h1 (by norm_num [MAX_OUTPUT_SIZE])

theorem replicate_max_a_ne_nil :
    List.replicate MAX_OUTPUT_SIZE 'a' ≠ ([] : Text) := by
  intro h
  have h1 := congrArg List.length h
  rw [List.length_replicate, List.length_nil] at h1
  exact absurd h1 (by norm_num [MAX_OUTPUT_SIZE])

/-- Stripping an oversized all-whitespace capture leaves only the
(whitespace-stripped) truncation marker. -/
theorem pyStrip_spaces_marker :
    pyStrip (List.replicate MAX_OUTPUT_SIZE ' ' ++ truncMarker) =
      txt "... (output truncated)" := by
  unfold pyStrip
  rw [dropWhile_replicate_true isPyWs ' ' (by decide)]
  decide

/-- Stripping a truncated capture with non-whitespace content is the
identity. -/
theorem pyStrip_a_marker :
    pyStrip (List.replicate MAX_OUTPUT_SIZE 'a' ++ truncMarker) =
      List.replicate MAX_OUTPUT_SIZE 'a' ++ truncMarker := by
  unfold pyStrip
  rw [dropWhile_eq_self_append isPyWs _ truncMarker
        (dropWhile_replicate_false isPyWs 'a' (by decide) _)
        replicate_max_a_ne_nil]
  rw [List.reverse_append]
  rw [dropWhile_eq_self_append isPyWs truncMarker.reverse _
        (by decide) (by decide)]
  simp

/-- Claim C8, counterexample: a validated program whose captured stdout
is 10001 whitespace characters does not yield the first 10000 captured
characters plus the marker; the final strip erases the whitespace prefix
entirely. -/
theorem whitespace_overflow_loses_prefix :
    monOutput (monitoredRun pWS ns0 sys0) =
      some (txt "... (output truncated)") ∧
    txt "... (output truncated)" ≠
      (List.replicate 10001 ' ' : Text).take MAX_OUTPUT_SIZE ++ truncMarker := by
  have ht : (List.replicate 10001 ' ' : Text).take MAX_OUTPUT_SIZE =
      List.replicate MAX_OUTPUT_SIZE ' ' := by
    rw [List.take_replicate]
    norm_num [MAX_OUTPUT_SIZE]
  constructor
  · have h0 := monitoredRun_normal pWS ns0 sys0
      (List.replicate 10001 ' ') [] [] false rfl
    have hc : MAX_OUTPUT_SIZE < (List.replicate 10001 ' ' : Text).length := by
      rw [List.length_replicate]
      norm_num [MAX_OUTPUT_SIZE]
    rw [if_pos hc] at h0
    rw [monOutput, h0, ht, pyStrip_spaces_marker]
  · rw [ht]
    intro h
    have hlen := congrArg List.length h
    have h22 : (txt "... (output truncated)").length = 22 := by decide
    have h23 : truncMarker.length = 23 := by decide
    rw [h22, List.length_append, List.length_replicate, h23] at hlen
    norm_num [MAX_OUTPUT_SIZE] at hlen

/-- Claim C8 as amended: captured stdout longer than the 10000-character
cap is truncated to the cap with the marker appended and the result is
then whitespace-stripped at both ends; a program printing 20000
non-whitespace characters yields exactly 10000 characters plus the
23-character marker. -/
theorem output_truncation_amended :
    (∀ (p : Program) (ns : SafeGlobals) (s : Sys) (out errOut : Text)
       (locs : List (String × Text)) (figs : Bool),
       p.outcome (tableAt s ns.dfRef) = .normal out errOut locs figs →
       MAX_OUTPUT_SIZE < out.length →
       monOutput (monitoredRun p ns s) =
         some (pyStrip (out.take MAX_OUTPUT_SIZE ++ truncMarker))) ∧
    monOutput (monitoredRun p20k ns0 sys0) =
      some (List.replicate MAX_OUTPUT_SIZE 'a' ++ truncMarker) ∧
    (List.replicate MAX_OUTPUT_SIZE 'a' ++ truncMarker).length =
      MAX_OUTPUT_SIZE + 23 := by
  have hgen : ∀ (p : Program) (ns : SafeGlobals) (s : Sys) (out errOut : Text)
      (locs : List (String × Text)) (figs : Bool),
      p.outcome (tableAt s ns.dfRef) = .normal out errOut locs figs →
      MAX_OUTPUT_SIZE < out.length →
      monOutput (monitoredRun p ns s) =
        some (pyStrip (out.take MAX_OUTPUT_SIZE ++ truncMarker)) := by
    intro p ns s out errOut locs figs h hl
    have h0 := monitoredRun_normal p ns s out errOut locs figs h
    rw [if_pos hl] at h0
    rw [monOutput, h0]
  refine ⟨hgen, ?_, ?_⟩
  · have h0 := hgen p20k ns0 sys0 (List.replicate 20000 'a') [] [] false rfl
      (by rw [List.length_replicate]; norm_num [MAX_OUTPUT_SIZE])
    have ht : (List.replicate 20000 'a' : Text).take MAX_OUTPUT_SIZE =
        List.replicate MAX_OUTPUT_SIZE 'a' := by
      rw [List.take_replicate]
      norm_num [MAX_OUTPUT_SIZE]
    rw [h0, ht, pyStrip_a_marker]
  · have h23 : truncMarker.length = 23 := by decide
    rw [List.length_append, List.length_replicate, h23]

/-- Witness for the amended claim C8, discharging its hypotheses at the
20000-character program. -/
theorem output_truncation_amended_witness :
    monOutput (monitoredRun p20k ns0 sys0) =
      some (pyStrip ((List.replicate 20000 'a' : Text).take MAX_OUTPUT_SIZE ++
        truncMarker)) :=
  output_truncation_amended.1 p20k ns0 sys0 (List.replicate 20000 'a') []
    [] false rfl (by rw [List.length_replicate]; norm_num [MAX_OUTPUT_SIZE])

/-! ### Executor-level lemmas -/

/-- The message carried by a veto. -/
def vetoMsg : Veto → String
  | .astReject m => m
  | .patternReject m => m

theorem execute_code_reject (amb : List String) (p : Program) (dfRef : Nat)
    (s : Sys) (v : Veto) (hv : staticValidate p = some v) :
    execute_code amb p dfRef s =
      { res := .error (.securityErr (vetoMsg v)), sys := s, recs := [] } := by
  cases v <;> simp [execute_code, hv, vetoMsg]

/-- The fresh `df` binding of the namespace holds exactly the value of the
caller's table. -/
theorem observed_copy (amb : List String) (s : Sys) (dfRef : Nat) :
    tableAt (create_safe_globals amb s dfRef).2
      (create_safe_globals amb s dfRef).1.dfRef = tableAt s dfRef := by
  show tableAt { s with tables := s.tables ++ [tableAt s dfRef] }
    s.tables.length = tableAt s dfRef
  show (s.tables ++ [tableAt s dfRef]).getD s.tables.length [] = tableAt s dfRef
  rw [List.getD_eq_getElem?_getD, List.getElem?_concat_length]
  rfl

/-- The namespace copy is a genuinely new reference, distinct from every
live reference (in particular from the caller's). -/
theorem copy_ref_fresh (amb : List String) (s : Sys) (dfRef : Nat)
    (hr : dfRef < s.tables.length) :
    (create_safe_globals amb s dfRef).1.dfRef ≠ dfRef := by
  show s.tables.length ≠ dfRef
  omega

theorem monitoredRun_tables (p : Program) (ns : SafeGlobals) (s : Sys) :
    (monitoredRun p ns s).sys.tables =
      s.tables.set ns.dfRef (p.tableAfter (tableAt s ns.dfRef)) := by
  simp only [monitoredRun]
  rcases h : p.outcome (tableAt s ns.dfRef) with
    ⟨out, errOut, locs, figs⟩ | ⟨et, em, tb⟩ | _ | _
  · simp only [h]
    cases figs <;> rfl
  · simp only [h]
    rfl
  · simp only [h]
    rfl
  · simp only [h]
    rfl

theorem execute_code_tableAt_lt (amb : List String) (p : Program)
    (dfRef : Nat) (s : Sys) (r : Nat) (hr : r < s.tables.length) :
    tableAt (execute_code amb p dfRef s).sys r = tableAt s r := by
  cases hv : staticValidate p with
  | some v =>
      rw [execute_code_reject amb p dfRef s v hv]
  | none =>
      simp only [execute_code, hv]
      have hleft : ∀ l2 : List TableVal,
          (s.tables ++ l2).getD r [] = s.tables.getD r [] := by
        intro l2
        rw [List.getD_eq_getElem?_getD, List.getD_eq_getElem?_getD,
          List.getElem?_append_left hr]
      cases hh : p.hangs with
      | true =>
          show tableAt (create_safe_globals amb s dfRef).2 r = tableAt s r
          exact hleft _
      | false =>
          show tableAt (monitoredRun p (create_safe_globals amb s dfRef).1
            (create_safe_globals amb s dfRef).2).sys r = tableAt s r
          show (monitoredRun p (create_safe_globals amb s dfRef).1
            (create_safe_globals amb s dfRef).2).sys.tables.getD r [] =
            tableAt s r
          rw [monitoredRun_tables]
          show ((s.tables ++ [tableAt s dfRef]).set s.tables.length _).getD r []
            = tableAt s r
          rw [List.getD_eq_getElem?_getD, List.getElem?_set_ne (by omega)]
          rw [List.getElem?_append_left hr]
          show _ = s.tables.getD r []
          rw [List.getD_eq_getElem?_getD]

theorem execute_code_tables_len (amb : List String) (p : Program)
    (dfRef : Nat) (s : Sys) :
    s.tables.length ≤ (execute_code amb p dfRef s).sys.tables.length := by
  cases hv : staticValidate p with
  | some v =>
      rw [execute_code_reject amb p dfRef s v hv]
  | none =>
      simp only [execute_code, hv]
      cases hh : p.hangs with
      | true =>
          show s.tables.length ≤
            (create_safe_globals amb s dfRef).2.tables.length
          show s.tables.length ≤ (s.tables ++ [tableAt s dfRef]).length
          rw [List.length_append]
          omega
      | false =>
          show s.tables.length ≤ (monitoredRun p
            (create_safe_globals amb s dfRef).1
            (create_safe_globals amb s dfRef).2).sys.tables.length
          rw [monitoredRun_tables, List.length_set]
          show s.tables.length ≤ (s.tables ++ [tableAt s dfRef]).length
          rw [List.length_append]
          omega

theorem execute_code_recs_observed (amb : List String) (p : Program)
    (dfRef : Nat) (s : Sys) :
    ∀ rec ∈ (execute_code amb p dfRef s).recs,
      rec.observed = tableAt s dfRef := by
  cases hv : staticValidate p with
  | some v =>
      rw [execute_code_reject amb p dfRef s v hv]
      intro rec hrec
      exact absurd hrec (List.not_mem_nil rec)
  | none =>
      simp only [execute_code, hv]
      cases hh : p.hangs with
      | true =>
          intro rec hrec
          exact absurd hrec (List.not_mem_nil rec)
      | false =>
          intro rec hrec
          have hrec2 : rec ∈ ([RunRec.mk p
              (tableAt (create_safe_globals amb s dfRef).2
                (create_safe_globals amb s dfRef).1.dfRef)
              ((monitoredRun p (create_safe_globals amb s dfRef).1
                (create_safe_globals amb s dfRef).2).res)] : List RunRec) := hrec
          simp only [List.mem_singleton] at hrec2
          rw [hrec2]
          exact observed_copy amb s dfRef

theorem execute_code_raise_res (amb : List String) (p : Program)
    (dfRef : Nat) (s : Sys) (et em : String) (tb : Text)
    (hv : staticValidate p = none) (hh : p.hangs = false)
    (ho : p.outcome (tableAt s dfRef) = .raiseE et em tb) :
    (execute_code amb p dfRef s).res = .ok (.fail em et tb p.execTime) := by
  simp only [execute_code, hv, hh]
  show (monitoredRun p (create_safe_globals amb s dfRef).1
    (create_safe_globals amb s dfRef).2).res = .ok (.fail em et tb p.execTime)
  apply monitoredRun_raise
  rw [observed_copy]
  exact ho

theorem execute_code_raise_recs (amb : List String) (p : Program)
    (dfRef : Nat) (s : Sys) (et em : String) (tb : Text)
    (hv : staticValidate p = none) (hh : p.hangs = false)
    (ho : p.outcome (tableAt s dfRef) = .raiseE et em tb) :
    (execute_code amb p dfRef s).recs =
      [{ prog := p, observed := tableAt s dfRef,
         res := .ok (.fail em et tb p.execTime) }] := by
  simp only [execute_code, hv, hh]
  show [({ prog := p,
           observed := tableAt (create_safe_globals amb s dfRef).2
             (create_safe_globals amb s dfRef).1.dfRef,
           res := (monitoredRun p (create_safe_globals amb s dfRef).1
             (create_safe_globals amb s dfRef).2).res } : RunRec)] = _
  rw [observed_copy]
  rw [monitoredRun_raise _ _ _ et em tb (by rw [observed_copy]; exact ho)]

/-! ### Loop-level lemmas -/

/-- Frame property of the retry loop: the caller's table is never
changed, and every recorded execution observed exactly the caller's
original table value. -/
theorem pqLoop_frame (amb : List String) (gen : GenSpec)
    (maxR dfRef t0 : Nat) :
    ∀ (left attempt : Nat) (code : Program) (s : Sys) (tr : List RunRec),
      dfRef < s.tables.length →
      (∀ rec ∈ tr, rec.observed = tableAt s dfRef) →
      tableAt (pqLoop amb gen maxR dfRef t0 left attempt code s tr).sys dfRef
          = tableAt s dfRef ∧
      (∀ rec ∈ (pqLoop amb gen maxR dfRef t0 left attempt code s tr).recs,
        rec.observed = tableAt s dfRef) := by
  intro left
  induction left with
  | zero =>
      intro attempt code s tr hr htr
      exact ⟨rfl, htr⟩
  | succ l ih =>
      intro attempt code s tr hr htr
      have hA := execute_code_tableAt_lt amb code dfRef s dfRef hr
      have hB : dfRef < (execute_code amb code dfRef s).sys.tables.length :=
        lt_of_lt_of_le hr (execute_code_tables_len amb code dfRef s)
      have hC : ∀ rec ∈ tr ++ (execute_code amb code dfRef s).recs,
          rec.observed = tableAt s dfRef := by
        intro rec hrec
        rcases List.mem_append.mp hrec with h1 | h2
        · exact htr rec h1
        · exact execute_code_recs_observed amb code dfRef s rec h2
      have hC2 : ∀ rec ∈ tr ++ (execute_code amb code dfRef s).recs,
          rec.observed = tableAt (execute_code amb code dfRef s).sys dfRef := by
        intro rec hrec
        rw [hA]
        exact hC rec hrec
      rcases hres : (execute_code amb code dfRef s).res with e | r
      · cases e with
        | securityErr m =>
            simp only [pqLoop, hres]
            exact ⟨hA, hC⟩
        | timeoutErr m =>
            simp only [pqLoop, hres]
            exact ⟨hA, hC⟩
        | execErr m =>
            simp only [pqLoop, hres]
            by_cases hat : attempt = maxR
            · rw [if_pos hat]
              exact ⟨hA, hC⟩
            · rw [if_neg hat]
              obtain ⟨ih1, ih2⟩ := ih (attempt + 1)
                (gen.revise code (exnMsg (.execErr m))
                  (exnTypeName (.execErr m)) (attempt + 1))
                (execute_code amb code dfRef s).sys
                (tr ++ (execute_code amb code dfRef s).recs) hB hC2
              refine ⟨by rw [ih1, hA], ?_⟩
              intro rec hrec
              rw [← hA]
              exact ih2 rec hrec
        | validationErr m =>
            simp only [pqLoop, hres]
            by_cases hat : attempt = maxR
            · rw [if_pos hat]
              exact ⟨hA, hC⟩
            · rw [if_neg hat]
              obtain ⟨ih1, ih2⟩ := ih (attempt + 1)
                (gen.revise code (exnMsg (.validationErr m))
                  (exnTypeName (.validationErr m)) (attempt + 1))
                (execute_code amb code dfRef s).sys
                (tr ++ (execute_code amb code dfRef s).recs) hB hC2
              refine ⟨by rw [ih1, hA], ?_⟩
              intro rec hrec
              rw [← hA]
              exact ih2 rec hrec
        | agentErr m =>
            simp only [pqLoop, hres]
            by_cases hat : attempt = maxR
            · rw [if_pos hat]
              exact ⟨hA, hC⟩
            · rw [if_neg hat]
              obtain ⟨ih1, ih2⟩ := ih (attempt + 1)
                (gen.revise code (exnMsg (.agentErr m))
                  (exnTypeName (.agentErr m)) (attempt + 1))
                (execute_code amb code dfRef s).sys
                (tr ++ (execute_code amb code dfRef s).recs) hB hC2
              refine ⟨by rw [ih1, hA], ?_⟩
              intro rec hrec
              rw [← hA]
              exact ih2 rec hrec
      · cases r with
        | ok out errs chart et locsV =>
            simp only [pqLoop, hres]
            exact ⟨hA, hC⟩
        | fail err etype tb et =>
            simp only [pqLoop, hres]
            by_cases hat : attempt = maxR
            · rw [if_pos hat]
              exact ⟨hA, hC⟩
            · rw [if_neg hat]
              obtain ⟨ih1, ih2⟩ := ih (attempt + 1)
                (gen.revise code err etype (attempt + 1))
                (execute_code amb code dfRef s).sys
                (tr ++ (execute_code amb code dfRef s).recs) hB hC2
              refine ⟨by rw [ih1, hA], ?_⟩
              intro rec hrec
              rw [← hA]
              exact ih2 rec hrec

/-- A program that passes both validation passes, finishes within the
deadline, and always ends in an ordinary raised failure. -/
def progAlwaysRaises (p : Program) : Prop :=
  staticValidate p = none ∧ p.hangs = false ∧
  ∀ tv, ∃ et em tb, p.outcome tv = .raiseE et em tb

/-- A program that passes validation, finishes within the deadline, and
always raises one fixed `KeyError`. -/
def progKeyFail (em : String) (tb : Text) (p : Program) : Prop :=
  staticValidate p = none ∧ p.hangs = false ∧
  ∀ tv, p.outcome tv = .raiseE "KeyError" em tb

/-- The retry loop under a generator whose programs always fail at
runtime: it terminates in a structured failure answer whose `attempts`
field is `maxRetries` and whose error fields are exactly the failure the
final attempt's program raised. -/
theorem pqLoop_allfail (amb : List String) (gen : GenSpec)
    (maxR dfRef t0 : Nat)
    (hrev : ∀ c e t a, progAlwaysRaises (gen.revise c e t a)) :
    ∀ (left attempt : Nat) (code : Program) (s : Sys) (tr : List RunRec),
      attempt + left = maxR + 1 → 1 ≤ left → dfRef < s.tables.length →
      progAlwaysRaises code →
      ∃ em et tb pt cp,
        (pqLoop amb gen maxR dfRef t0 left attempt code s tr).res =
          .ok (some (.failed (failMsg maxR em) em et cp "error" pt maxR)) ∧
        cp.outcome (tableAt s dfRef) = .raiseE et em tb := by
  intro left
  induction left with
  | zero =>
      intro attempt code s tr hsum hone hr hcode
      omega
  | succ l ih =>
      intro attempt code s tr hsum hone hr hcode
      obtain ⟨hv, hh, hosp⟩ := hcode
      obtain ⟨et, em, tb, ho⟩ := hosp (tableAt s dfRef)
      have hres := execute_code_raise_res amb code dfRef s et em tb hv hh ho
      simp only [pqLoop, hres]
      by_cases hat : attempt = maxR
      · rw [if_pos hat]
        subst hat
        exact ⟨em, et, tb, (execute_code amb code dfRef s).sys.now - t0,
          code, rfl, ho⟩
      · rw [if_neg hat]
        have hB : dfRef < (execute_code amb code dfRef s).sys.tables.length :=
          lt_of_lt_of_le hr (execute_code_tables_len amb code dfRef s)
        obtain ⟨em2, et2, tb2, pt2, cp2, hres2, ho2⟩ :=
          ih (attempt + 1) (gen.revise code em et (attempt + 1))
            (execute_code amb code dfRef s).sys
            (tr ++ (execute_code amb code dfRef s).recs)
            (by omega) (by omega) hB (hrev code em et (attempt + 1))
        refine ⟨em2, et2, tb2, pt2, cp2, hres2, ?_⟩
        rw [← execute_code_tableAt_lt amb code dfRef s dfRef hr]
        exact ho2

/-- One non-final step of the retry loop under a fixed `KeyError`
failure: the next attempt runs the revision of the current program with
the recorded error. -/
theorem pqLoop_step_fail (amb : List String) (gen : GenSpec)
    (maxR dfRef t0 left attempt : Nat) (code : Program) (s : Sys)
    (tr : List RunRec) (em : String) (tb : Text)
    (hcode : progKeyFail em tb code) (hat : attempt ≠ maxR) :
    pqLoop amb gen maxR dfRef t0 (Nat.succ left) attempt code s tr =
      pqLoop amb gen maxR dfRef t0 left (attempt + 1)
        (gen.revise code em "KeyError" (attempt + 1))
        (execute_code amb code dfRef s).sys
        (tr ++ [{ prog := code, observed := tableAt s dfRef,
                  res := .ok (.fail em "KeyError" tb code.execTime) }]) := by
  obtain ⟨hv, hh, ho⟩ := hcode
  have hres := execute_code_raise_res amb code dfRef s "KeyError" em tb hv hh
    (ho (tableAt s dfRef))
  have hrecs := execute_code_raise_recs amb code dfRef s "KeyError" em tb hv hh
    (ho (tableAt s dfRef))
  simp only [pqLoop, hres, hrecs]
  rw [if_neg hat]

/-- The final step of the retry loop under a fixed `KeyError` failure:
the terminal failure answer. -/
theorem pqLoop_last_fail (amb : List String) (gen : GenSpec)
    (maxR dfRef t0 left attempt : Nat) (code : Program) (s : Sys)
    (tr : List RunRec) (em : String) (tb : Text)
    (hcode : progKeyFail em tb code) (hat : attempt = maxR) :
    pqLoop amb gen maxR dfRef t0 (Nat.succ left) attempt code s tr =
      { res := .ok (some (.failed (failMsg maxR em) em "KeyError" code "error"
                  ((execute_code amb code dfRef s).sys.now - t0) attempt)),
        sys := (execute_code amb code dfRef s).sys,
        recs := tr ++ [{ prog := code, observed := tableAt s dfRef,
                         res := .ok (.fail em "KeyError" tb code.execTime) }] }
      := by
  obtain ⟨hv, hh, ho⟩ := hcode
  have hres := execute_code_raise_res amb code dfRef s "KeyError" em tb hv hh
    (ho (tableAt s dfRef))
  have hrecs := execute_code_raise_recs amb code dfRef s "KeyError" em tb hv hh
    (ho (tableAt s dfRef))
  simp only [pqLoop, hres, hrecs]
  rw [if_pos hat]

/-! ### Claim C1 -/

/-- Claim C1: a program rejected by static validation is never executed.
`execute_code` raises `SecurityError` leaving the world untouched (no
namespace built, no stream captured, no run recorded), and
`process_question` performs zero executions and surfaces the
`SecurityError` immediately, consuming no retry attempt. -/
theorem static_rejection_executes_nothing (amb : List String)
    (gen : GenSpec) (maxR dfRef : Nat) (q : Text) (s : Sys)
    (hrej : (staticValidate gen.initial).isSome = true)
    (hmr : 1 ≤ maxR) (hdf : tableAt s dfRef ≠ []) (hq : pyStrip q ≠ []) :
    ∃ m, execute_code amb gen.initial dfRef s =
        { res := .error (.securityErr m), sys := s, recs := [] } ∧
      process_question amb gen maxR dfRef q s =
        { res := .error (.securityErr m), sys := s, recs := [] } := by
  cases hv : staticValidate gen.initial with
  | none =>
      rw [hv] at hrej
      simp at hrej
  | some v =>
      refine ⟨vetoMsg v, execute_code_reject amb gen.initial dfRef s v hv, ?_⟩
      unfold process_question
      rw [if_neg hdf, if_neg hq]
      obtain ⟨l, rfl⟩ : ∃ l, maxR = l + 1 := ⟨maxR - 1, by omega⟩
      show pqLoop amb gen (l + 1) dfRef s.now (l + 1) 1 gen.initial s [] = _
      have he := execute_code_reject amb gen.initial dfRef s v hv
      cases v with
      | astReject m =>
          simp only [pqLoop, he]
          rfl
      | patternReject m =>
          simp only [pqLoop, he]
          rfl

/-- Witness for claim C1, at the generator that emits `import os`. -/
theorem static_rejection_executes_nothing_witness :
    ∃ m, execute_code amb0 genRej.initial 0 sys0 =
        { res := .error (.securityErr m), sys := sys0, recs := [] } ∧
      process_question amb0 genRej 3 0 q0 sys0 =
        { res := .error (.securityErr m), sys := sys0, recs := [] } :=
  static_rejection_executes_nothing amb0 genRej 3 0 q0 sys0 (by rfl)
    (by omega) (by decide) (by decide)

/-! ### Claim C7 -/

/-- Claim C7: execution operates on a fresh copy of the table bound
under `df`. The caller's table is unchanged after `process_question`;
every attempt observed exactly the caller's original table value (so no
attempt can see a prior attempt's mutations); and the namespace binds
`df` to a fresh reference holding the original value. -/
theorem df_copy_isolation (amb : List String) (gen : GenSpec)
    (maxR dfRef : Nat) (q : Text) (s : Sys) (hr : dfRef < s.tables.length) :
    tableAt (process_question amb gen maxR dfRef q s).sys dfRef =
      tableAt s dfRef ∧
    (∀ rec ∈ (process_question amb gen maxR dfRef q s).recs,
       rec.observed = tableAt s dfRef) ∧
    (create_safe_globals amb s dfRef).1.dfRef ≠ dfRef ∧
    tableAt (create_safe_globals amb s dfRef).2
      (create_safe_globals amb s dfRef).1.dfRef = tableAt s dfRef := by
  have hm : tableAt (process_question amb gen maxR dfRef q s).sys dfRef =
      tableAt s dfRef ∧
      (∀ rec ∈ (process_question amb gen maxR dfRef q s).recs,
        rec.observed = tableAt s dfRef) := by
    unfold process_question
    by_cases h1 : tableAt s dfRef = []
    · rw [if_pos h1]
      exact ⟨rfl, fun rec hrec => absurd hrec (List.not_mem_nil rec)⟩
    · rw [if_neg h1]
      by_cases h2 : pyStrip q = []
      · rw [if_pos h2]
        exact ⟨rfl, fun rec hrec => absurd hrec (List.not_mem_nil rec)⟩
      · rw [if_neg h2]
        cases maxR with
        | zero =>
            exact ⟨rfl, fun rec hrec => absurd hrec (List.not_mem_nil rec)⟩
        | succ l =>
            exact pqLoop_frame amb gen (l + 1) dfRef s.now (l + 1) 1
              gen.initial s [] hr
              (fun rec hrec => absurd hrec (List.not_mem_nil rec))
  exact ⟨hm.1, hm.2, copy_ref_fresh amb s dfRef hr, observed_copy amb s dfRef⟩

/-- Witness for claim C7 at a concrete state and generator. -/
theorem df_copy_isolation_witness :
    tableAt (process_question amb0 genKey 3 0 q0 sys0).sys 0 =
      tableAt sys0 0 ∧
    (∀ rec ∈ (process_question amb0 genKey 3 0 q0 sys0).recs,
       rec.observed = tableAt sys0 0) ∧
    (create_safe_globals amb0 sys0 0).1.dfRef ≠ 0 ∧
    tableAt (create_safe_globals amb0 sys0 0).2
      (create_safe_globals amb0 sys0 0).1.dfRef = tableAt sys0 0 :=
  df_copy_isolation amb0 genKey 3 0 q0 sys0 (by decide)

/-! ### Claim C4 -/

/-- Claim C4: when every attempt fails with an ordinary runtime failure
(no `SecurityError`, no `TimeoutError`), `process_question` never raises:
it returns a structured failure answer whose `attempts` field is the
retry bound and whose error fields are exactly the failure raised by the
final attempt's program (the last error). -/
theorem exhausted_retries_return_failure_answer (amb : List String)
    (gen : GenSpec) (maxR dfRef : Nat) (q : Text) (s : Sys)
    (hinit : progAlwaysRaises gen.initial)
    (hrev : ∀ c e t a, progAlwaysRaises (gen.revise c e t a))
    (hmr : 1 ≤ maxR) (hr : dfRef < s.tables.length)
    (hdf : tableAt s dfRef ≠ []) (hq : pyStrip q ≠ []) :
    ∃ em et tb pt cp,
      (process_question amb gen maxR dfRef q s).res =
        .ok (some (.failed (failMsg maxR em) em et cp "error" pt maxR)) ∧
      cp.outcome (tableAt s dfRef) = .raiseE et em tb := by
  unfold process_question
  rw [if_neg hdf, if_neg hq]
  obtain ⟨l, rfl⟩ : ∃ l, maxR = l + 1 := ⟨maxR - 1, by omega⟩
  show ∃ em et tb pt cp,
    (pqLoop amb gen (l + 1) dfRef s.now (l + 1) 1 gen.initial s []).res =
      .ok (some (.failed (failMsg (l + 1) em) em et cp "error" pt (l + 1))) ∧
    cp.outcome (tableAt s dfRef) = .raiseE et em tb
  exact pqLoop_allfail amb gen (l + 1) dfRef s.now hrev (l + 1) 1 gen.initial
    s [] (by omega) (by omega) hr hinit

/-- Witness for claim C4, at a generator that always raises the same
`ValueError`. -/
theorem exhausted_retries_return_failure_answer_witness :
    ∃ em et tb pt cp,
      (process_question amb0 genVal 3 0 q0 sys0).res =
        .ok (some (.failed (failMsg 3 em) em et cp "error" pt 3)) ∧
      cp.outcome (tableAt sys0 0) = .raiseE et em tb :=
  exhausted_retries_return_failure_answer amb0 genVal 3 0 q0 sys0
    ⟨by rfl, rfl, fun tv => ⟨"ValueError", "boom", txt "tb", rfl⟩⟩
    (fun c e t a => ⟨by rfl, rfl, fun tv => ⟨"ValueError", "boom", txt "tb", rfl⟩⟩)
    (by omega) (by decide) (by decide) (by decide)

/-! ### Claim C5 -/

/-- Claim C5: with a code generator whose every program raises the same
`KeyError`-shaped failure and `maxRetries = 3`, `process_question`
performs exactly 3 executions, strictly sequentially (attempt N+1 runs
the revision of attempt N's program with attempt N's recorded error),
and returns a terminal failure answer whose `attempts` field is 3. -/
theorem keyerror_generator_three_sequential_attempts (amb : List String)
    (gen : GenSpec) (dfRef : Nat) (q : Text) (s : Sys) (em : String)
    (tb : Text)
    (h1 : progKeyFail em tb gen.initial)
    (h2 : ∀ c e t a, progKeyFail em tb (gen.revise c e t a))
    (hdf : tableAt s dfRef ≠ []) (hq : pyStrip q ≠ []) :
    (process_question amb gen 3 dfRef q s).recs.length = 3 ∧
    (process_question amb gen 3 dfRef q s).recs.map RunRec.prog =
      [gen.initial,
       gen.revise gen.initial em "KeyError" 2,
       gen.revise (gen.revise gen.initial em "KeyError" 2) em "KeyError" 3] ∧
    ∃ pt, (process_question amb gen 3 dfRef q s).res =
      .ok (some (.failed (failMsg 3 em) em "KeyError"
        (gen.revise (gen.revise gen.initial em "KeyError" 2) em "KeyError" 3)
        "error" pt 3)) := by
  have hPq : process_question amb gen 3 dfRef q s =
      pqLoop amb gen 3 dfRef s.now 3 1 gen.initial s [] := by
    unfold process_question
    rw [if_neg hdf, if_neg hq]
  have e1 : pqLoop amb gen 3 dfRef s.now 3 1 gen.initial s [] =
      pqLoop amb gen 3 dfRef s.now 2 2
        (gen.revise gen.initial em "KeyError" 2)
        (execute_code amb gen.initial dfRef s).sys
        ([] ++ [{ prog := gen.initial, observed := tableAt s dfRef,
                  res := .ok (.fail em "KeyError" tb gen.initial.execTime) }]) :=
    pqLoop_step_fail amb gen 3 dfRef s.now 2 1 gen.initial s [] em tb h1
      (by omega)
  have e2 : pqLoop amb gen 3 dfRef s.now 2 2
      (gen.revise gen.initial em "KeyError" 2)
      (execute_code amb gen.initial dfRef s).sys
      ([] ++ [{ prog := gen.initial, observed := tableAt s dfRef,
                res := .ok (.fail em "KeyError" tb gen.initial.execTime) }]) =
      pqLoop amb gen 3 dfRef s.now 1 3
        (gen.revise (gen.revise gen.initial em "KeyError" 2) em "KeyError" 3)
        (execute_code amb (gen.revise gen.initial em "KeyError" 2) dfRef
          (execute_code amb gen.initial dfRef s).sys).sys
        (([] ++ [{ prog := gen.initial, observed := tableAt s dfRef,
                   res := .ok (.fail em "KeyError" tb gen.initial.execTime) }])
          ++ [{ prog := gen.revise gen.initial em "KeyError" 2,
                observed := tableAt (execute_code amb gen.initial dfRef s).sys
                  dfRef,
                res := .ok (.fail em "KeyError" tb
                  (gen.revise gen.initial em "KeyError" 2).execTime) }]) :=
    pqLoop_step_fail amb gen 3 dfRef s.now 1 2
      (gen.revise gen.initial em "KeyError" 2)
      (execute_code amb gen.initial dfRef s).sys _ em tb
      (h2 gen.initial em "KeyError" 2) (by omega)
  have e3 := pqLoop_last_fail amb gen 3 dfRef s.now 0 3
    (gen.revise (gen.revise gen.initial em "KeyError" 2) em "KeyError" 3)
    (execute_code amb (gen.revise gen.initial em "KeyError" 2) dfRef
      (execute_code amb gen.initial dfRef s).sys).sys
    (([] ++ [{ prog := gen.initial, observed := tableAt s dfRef,
               res := .ok (.fail em "KeyError" tb gen.initial.execTime) }])
      ++ [{ prog := gen.revise gen.initial em "KeyError" 2,
            observed := tableAt (execute_code amb gen.initial dfRef s).sys
              dfRef,
            res := .ok (.fail em "KeyError" tb
              (gen.revise gen.initial em "KeyError" 2).execTime) }])
    em tb (h2 (gen.revise gen.initial em "KeyError" 2) em "KeyError" 3) rfl
  rw [hPq, e1, e2, e3]
  refine ⟨by simp, by simp, ?_⟩
  exact ⟨_, rfl⟩

/-- Witness for claim C5 at a concrete always-`KeyError` generator. -/
theorem keyerror_generator_three_sequential_attempts_witness :
    (process_question amb0 genKey 3 0 q0 sys0).recs.length = 3 ∧
    (process_question amb0 genKey 3 0 q0 sys0).recs.map RunRec.prog =
      [genKey.initial,
       genKey.revise genKey.initial "missing column" "KeyError" 2,
       genKey.revise (genKey.revise genKey.initial "missing column"
         "KeyError" 2) "missing column" "KeyError" 3] ∧
    ∃ pt, (process_question amb0 genKey 3 0 q0 sys0).res =
      .ok (some (.failed (failMsg 3 "missing column") "missing column"
        "KeyError"
        (genKey.revise (genKey.revise genKey.initial "missing column"
          "KeyError" 2) "missing column" "KeyError" 3)
        "error" pt 3)) :=
  keyerror_generator_three_sequential_attempts amb0 genKey 0 q0 sys0
    "missing column" (txt "tb")
    ⟨by rfl, rfl, fun tv => rfl⟩
    (fun c e t a => ⟨by rfl, rfl, fun tv => rfl⟩)
    (by decide) (by decide)
